import Mathlib

/-!
Shallow embedding of the client-side entity-synchronization core of the
`crm_tg_AI` repository (the `AppProvider` state module in
`src/frontend/src/context/AuthContext.tsx`, the transfer submission guard in
`src/frontend/src/components/TransfersManager.tsx`, and the entity shapes in
`src/frontend/src/types.ts`).

Modelling conventions:
* JavaScript `number` identifiers and timestamps are `Nat` (all clock values
  produced by `Date.now()` and ISO strings are order-isomorphic to naturals).
* A JS field that may be `undefined` is an `Option`; a value stored for a key
  that may be absent is likewise an `Option`.
* JS truthiness on strings (`undefined` and `""` are falsy) is the `truthy`
  function below; truthiness on numbers (only `0` falsy for ids) is `jsOrNum`
  and `isFalsyId`.
* `localStorage` writes always store exactly the collection value returned by
  the mutator, so persistence is represented by the returned collections; a
  separate `Bool` is used where a claim talks about whether a write happened.
-/

set_option linter.unusedVariables false

namespace CrmTg

/-- JS string truthiness filter: `s || t` keeps `s` only when it is neither
`undefined` nor the empty string. -/
def truthy : Option String → Option String
  | some s => if s = "" then none else some s
  | none => none

/-- JS `a || b` on optional numeric ids: `0` and `undefined` are falsy. -/
def jsOrNum (a b : Option Nat) : Option Nat :=
  match a with
  | some v => if v = 0 then b else some v
  | none => b

/-- Conversation kind from `types.ts` (`'private' | 'group' | 'supergroup' | 'channel'`);
`privateChat` renders the string literal `'private'`. -/
inductive ChatKind
  | privateChat
  | group
  | supergroup
  | channel
deriving DecidableEq, Repr

/-- `Message` from `types.ts` (reply_to_message omitted: never populated by
the embedded code paths). -/
structure Message where
  id : Nat
  chat_id : Nat
  sender_id : Nat
  text : String
  date : Nat
  from_me : Bool
deriving DecidableEq, Repr

/-- `Chat` from `types.ts`.  `manager_id` is declared `number` there, but the
repair and migration code defends against it being absent or a non-number on
legacy records, so it is an `Option`; `account_id` is the legacy (pre-v3)
owner hint consulted by migration and repair. -/
structure Chat where
  id : Nat
  type : ChatKind
  title : Option String := none
  username : Option String := none
  first_name : Option String := none
  last_name : Option String := none
  last_message : Option Message := none
  unread_count : Nat := 0
  pinned : Bool := false
  muted : Bool := false
  is_bot_chat : Bool := true
  manager_id : Option Nat := none
  account_id : Option Nat := none
deriving DecidableEq, Repr

/-- `Manager` from `types.ts`. -/
structure Manager where
  id : Nat
  name : String
  telegram_user_id : Option Nat := none
  role : Option String := some "manager"
  created_at : Nat
deriving DecidableEq, Repr

/-- One entry of `Account.username_history`. -/
structure HistEntry where
  username : String
  changed_at : Nat
deriving DecidableEq, Repr

/-- `Account` (a CRM contact) from `types.ts`.  `category` and `source` are
the string literals used by the code. -/
structure Account where
  id : Nat
  user_id : Nat
  username : Option String := none
  username_history : List HistEntry := []
  first_name : String
  last_name : Option String := none
  rating : Nat
  tags : List String := []
  category : String
  notes : String := ""
  source : String
  created_at : Nat
  last_contact : Nat
  total_messages : Nat
  chat_type : Option ChatKind := none
  manager_id : Option Nat := none
deriving DecidableEq, Repr

/-- The new-account object literal inside `createAccountFromChat`
(AuthContext.tsx lines 778-796). -/
def newAccountFromChat (chat : Chat) (senderId now : Nat)
    (activeManagerId : Option Nat) (managers : List Manager) : Account :=
  { user_id := senderId
    -- Fallback precedence: explicit first name > title > username > placeholder
    first_name := (truthy chat.first_name).getD
      ((truthy chat.title).getD ((truthy chat.username).getD "Без имени"))
    last_name := truthy chat.last_name
    username := truthy chat.username
    rating := 1
    tags := []
    category := if chat.type = ChatKind.privateChat then "lead" else "other"
    notes := "Автоматически создан из " ++
      (if chat.type = ChatKind.privateChat then "личного чата" else "группового чата")
    source := if chat.type = ChatKind.privateChat then "private" else "group"
    created_at := now
    last_contact := now
    total_messages := 1
    chat_type := some chat.type
    id := now
    manager_id := jsOrNum activeManagerId (managers.head?.map Manager.id) }

/-- `createAccountFromChat` (AuthContext.tsx lines 766-801): the identity
reconciler.  `now` stands for `Date.now()` / `new Date().toISOString()` of
this invocation (both derive from the same clock). -/
def createAccountFromChat (accounts : List Account) (chat : Chat) (senderId : Nat)
    (now : Nat) (activeManagerId : Option Nat) (managers : List Manager) : List Account :=
  match accounts.find? (fun acc => acc.user_id == senderId) with
  | some existing =>
      accounts.map (fun acc =>
        if acc.id == existing.id then
          { acc with last_contact := now, total_messages := acc.total_messages + 1 }
        else acc)
  | none =>
      accounts ++ [newAccountFromChat chat senderId now activeManagerId managers]

/-- `addAccount` (AuthContext.tsx lines 807-814): appends unconditionally,
with `manager_id` defaulted by nullish coalescing. -/
def addAccount (accounts : List Account) (account : Account) (now : Nat)
    (activeManagerId : Option Nat) (managers : List Manager) : List Account :=
  let newAccount : Account := { account with
    id := now
    manager_id := (account.manager_id.orElse (fun _ => activeManagerId)).orElse
      (fun _ => managers.head?.map Manager.id) }
  accounts ++ [newAccount]

/-- `deleteAccount` (AuthContext.tsx lines 835-841). -/
def deleteAccount (accounts : List Account) (id : Nat) : List Account :=
  accounts.filter (fun account => account.id != id)

/-- A `Partial<Account>` patch as used by `updateAccount` callers relevant to
the claims: a field is `some v` when the key is present.  (`username := some ""`
models `{username: ""}`, which is falsy in the history guard but still
overwrites the field through the object spread.) -/
structure AccountPatch where
  username : Option String := none
  rating : Option Nat := none
deriving DecidableEq, Repr

/-- The condition `updates.username && updates.username !== account.username`
guarding the history push in `updateAccount`. -/
def usernameChangeTriggers (acc : Account) (p : AccountPatch) : Bool :=
  match p.username with
  | some u => u != "" && some u != acc.username
  | none => false

/-- `account.username || '(empty)'` — the value recorded into the history. -/
def usernameOrPlaceholder : Option String → String
  | some s => if s = "" then "(empty)" else s
  | none => "(empty)"

/-- The per-account body of `updateAccount` (AuthContext.tsx lines 816-833):
history push (bounded by `.slice(0, 20)`) followed by the object spread
`{ ...account, ...updates, username_history }`. -/
def applyAccountUpdate (acc : Account) (p : AccountPatch) (now : Nat) : Account :=
  let username_history :=
    if usernameChangeTriggers acc p then
      (⟨usernameOrPlaceholder acc.username, now⟩ :: acc.username_history).take 20
    else acc.username_history
  { acc with
    username := match p.username with | some u => some u | none => acc.username
    rating := match p.rating with | some r => r | none => acc.rating
    username_history := username_history }

/-- `updateAccount` (AuthContext.tsx lines 816-833): maps the patch over every
account whose local `id` matches. -/
def updateAccount (accounts : List Account) (id : Nat) (p : AccountPatch) (now : Nat) :
    List Account :=
  accounts.map (fun account => if account.id == id then applyAccountUpdate account p now else account)

/-- `TransferRecord.status` literals from `types.ts`. -/
inductive TransferStatus
  | new
  | in_progress
  | completed
  | cancelled
deriving DecidableEq, Repr

/-- `TransferRecord` from `types.ts`. -/
structure TransferRecord where
  id : Nat
  supplier_account_id : Nat
  client_account_id : Nat
  created_at : Nat
  status : TransferStatus
  notes : Option String := none
deriving DecidableEq, Repr

/-- The `Omit<TransferRecord, 'id' | 'created_at'>` payload of `addTransferRecord`. -/
structure TransferData where
  supplier_account_id : Nat
  client_account_id : Nat
  status : TransferStatus
  notes : Option String := none
deriving DecidableEq, Repr

/-- `addTransferRecord` (AuthContext.tsx lines 495-506): prepends the new record. -/
def addTransferRecord (records : List TransferRecord) (data : TransferData) (now : Nat) :
    List TransferRecord :=
  { supplier_account_id := data.supplier_account_id
    client_account_id := data.client_account_id
    status := data.status
    notes := data.notes
    id := now
    created_at := now } :: records

/-- `updateTransferRecord` (AuthContext.tsx lines 508-514) restricted to the
full-field patch the submit path passes. -/
def updateTransferRecord (records : List TransferRecord) (id : Nat) (data : TransferData) :
    List TransferRecord :=
  records.map (fun r =>
    if r.id == id then
      { r with
        supplier_account_id := data.supplier_account_id
        client_account_id := data.client_account_id
        status := data.status
        notes := data.notes }
    else r)

/-- `TransferFormState` from `TransfersManager.tsx`: the id selects hold
`number | ''`; the empty-select state `''` is `none`. -/
structure TransferFormState where
  supplier_account_id : Option Nat
  client_account_id : Option Nat
  status : TransferStatus
  notes : String
deriving DecidableEq, Repr

/-- JS falsiness of `number | ''`: `''` and `0` are falsy. -/
def isFalsyId : Option Nat → Bool
  | none => true
  | some v => v == 0

/-- Outcome of one form submission in `TransfersManager.handleSubmit`. -/
inductive SubmitOutcome
  | rejected (message : String)
  | createRecord (data : TransferData)
  | editRecord (id : Nat) (data : TransferData)
deriving DecidableEq, Repr

/-- `handleSubmit` (TransfersManager.tsx lines 132-159), up to the store calls:
which store mutator (if any) the submission reaches. -/
def handleSubmit (editing : Option TransferRecord) (form : TransferFormState) : SubmitOutcome :=
  if isFalsyId form.supplier_account_id || isFalsyId form.client_account_id then
    .rejected "Выберите клиента и поставщика"
  else if form.supplier_account_id == form.client_account_id then
    .rejected "Клиент и поставщик не могут совпадать"
  else
    let data : TransferData := {
      supplier_account_id := form.supplier_account_id.getD 0
      client_account_id := form.client_account_id.getD 0
      status := form.status
      notes := some form.notes }
    match editing with
    | some e => .editRecord e.id data
    | none => .createRecord data

/-- Effect of one submission on the transfers collection: the store mutator
invoked by `handleSubmit`, or no change when the submission was rejected. -/
def submitEffect (records : List TransferRecord) (editing : Option TransferRecord)
    (form : TransferFormState) (now : Nat) : List TransferRecord :=
  match handleSubmit editing form with
  | .rejected _ => records
  | .createRecord data => addTransferRecord records data now
  | .editRecord id data => updateTransferRecord records id data

/-- `TelegramUser` snapshot embedded in a chat member record. -/
structure ChatMemberUser where
  id : Nat
  first_name : String
  last_name : String
  username : String
  is_bot : Bool
deriving DecidableEq, Repr

/-- `ChatMember` from `types.ts`. -/
structure ChatMember where
  chat_id : Nat
  user_id : Nat
  added_at : Nat
  role : String
  user : Option ChatMemberUser := none
deriving DecidableEq, Repr

/-- The member record built for one appended id inside `addMembersBulk`
(AuthContext.tsx lines 926-950); `'Имя'+id` etc. are decimal-string
concatenations, and `String(id).slice(-2)` keeps the last two digits. -/
def mkBulkMember (chatId : Nat) (now : Nat) (isCreator : Bool) (id : Nat) : ChatMember :=
  { chat_id := chatId
    user_id := id
    added_at := now
    role := if isCreator then "creator" else "member"
    user := some {
      id := id
      first_name := "Имя" ++ toString id
      last_name := "Фамилия" ++ (toString id).takeRight 2
      username := "user_" ++ toString id
      is_bot := false } }

/-- `prev.filter(m => m.chat_id === chatId)` inside `addMembersBulk`. -/
def existingForChat (members : List ChatMember) (chatId : Nat) : List ChatMember :=
  members.filter (fun m => m.chat_id == chatId)

/-- The `additions` array of `addMembersBulk`: incoming ids not in the
existing set for this chat (`existingSet.has`), each mapped with its index to
a member record (`idx === 0` on a previously member-less chat gets role
`creator`). -/
def bulkAdditions (members : List ChatMember) (chatId : Nat) (userIds : List Nat)
    (now : Nat) : List ChatMember :=
  ((userIds.filter (fun id =>
      !(((existingForChat members chatId).map ChatMember.user_id).contains id))).enum).map
    (fun p => mkBulkMember chatId now
      (p.1 == 0 && (existingForChat members chatId).isEmpty) p.2)

/-- `addMembersBulk` (AuthContext.tsx lines 926-950). -/
def addMembersBulk (members : List ChatMember) (chatId : Nat) (userIds : List Nat)
    (now : Nat) : List ChatMember :=
  if userIds.isEmpty then members
  else members ++ bulkAdditions members chatId userIds now

/-- The persisted envelope the schema migrator transforms: stored managers,
stored chats, and the schema-version marker. -/
structure Envelope where
  managers : List Manager
  chats : List Chat
  schema_version : Nat
deriving DecidableEq, Repr

/-- The manager created by `migrateToManagers` when none are stored
(`{ id: Date.now(), name: 'Менеджер 1', created_at: ..., role: 'manager' }`). -/
def mkDefaultManager (now : Nat) : Manager :=
  { id := now, name := "Менеджер 1", telegram_user_id := none
    role := some "manager", created_at := now }

/-- `createMockChats` (AuthContext.tsx lines 528-587). -/
def createMockChats (managerId : Nat) (now : Nat) : List Chat :=
  [ { id := 1
      type := ChatKind.privateChat
      first_name := some "John"
      last_name := some "Smith"
      username := some "johnsmith"
      unread_count := 3
      pinned := true
      muted := false
      is_bot_chat := true
      manager_id := some managerId
      last_message := some {
        id := 1, chat_id := 1, sender_id := 1
        text := "Привет! Как дела с проектом?"
        date := now - 3600000, from_me := false } }
  , { id := 2
      type := ChatKind.privateChat
      first_name := some "Anna"
      last_name := some "Johnson"
      username := some "anna_j"
      unread_count := 0
      pinned := false
      muted := false
      is_bot_chat := true
      manager_id := some managerId
      last_message := some {
        id := 2, chat_id := 2, sender_id := 2
        text := "Спасибо за предложение!"
        date := now - 7200000, from_me := true } }
  , { id := 3
      type := ChatKind.group
      title := some "Team Discussion"
      unread_count := 12
      pinned := false
      muted := true
      is_bot_chat := true
      manager_id := some managerId
      last_message := some {
        id := 3, chat_id := 3, sender_id := 3
        text := "Встреча завтра в 10:00"
        date := now - 1800000, from_me := false } } ]

/-- The manager list after `migrateToManagers` ensured one exists
(`if (mgrs.length === 0) { ... }`). -/
def migMgrs (env : Envelope) (now : Nat) : List Manager :=
  if env.managers.isEmpty then [mkDefaultManager now] else env.managers

/-- `const mid = mgrs[0].id` — the canonical first manager id; the `headD`
default is unreachable since `migMgrs` is never empty. -/
def migMid (env : Envelope) (now : Nat) : Nat :=
  ((migMgrs env now).headD (mkDefaultManager now)).id

/-- Per-chat transform of the migration:
`{ ...c, manager_id: c.manager_id ?? c.account_id ?? mid }`. -/
def migrateChat (mid : Nat) (c : Chat) : Chat :=
  { c with manager_id := some ((c.manager_id.orElse (fun _ => c.account_id)).getD mid) }

/-- `migrateToManagers` (AuthContext.tsx lines 465-492), the version 1→3
schema transform, as a pure envelope transform.  `now` is `Date.now()` of the
invocation. -/
def migrateToManagers (env : Envelope) (now : Nat) : Envelope :=
  { managers := migMgrs env now
    chats :=
      if (env.chats.map (migrateChat (migMid env now))).isEmpty then
        createMockChats (migMid env now) now
      else env.chats.map (migrateChat (migMid env now))
    schema_version := 3 }

/-- Does the repair pass consider this chat's `manager_id` dangling
(`typeof mgrId !== 'number' || !managerIds.has(mgrId)`)?  -/
def needsFix (managers : List Manager) (c : Chat) : Bool :=
  match c.manager_id with
  | none => true
  | some v => !(managers.any (fun m => m.id == v))

/-- Reassignment of one chat inside the repair pass: dangling `manager_id` is
replaced by the legacy `account_id` hint when that matches a current manager
id, else by the first manager's id. -/
def normalizeChat (managers : List Manager) (firstId : Nat) (c : Chat) : Chat :=
  if needsFix managers c then
    { c with manager_id := some (match c.account_id with
        | some a => if managers.any (fun m => m.id == a) then a else firstId
        | none => firstId) }
  else c

/-- The repair / normalize-legacy-chats pass (AuthContext.tsx lines 1300-1330).
Returns the resulting chat list and whether a persistence write happened
(seeding an empty list, or the `changed` flag triggering a save). -/
def repairChats (managers : List Manager) (chats : List Chat) (now : Nat) :
    List Chat × Bool :=
  match managers with
  | [] => (chats, false)
  | m :: _ =>
    if chats.isEmpty then (createMockChats m.id now, true)
    else if chats.any (needsFix managers) then
      (chats.map (normalizeChat managers m.id), true)
    else (chats, false)

/-- `deleteManager` acts on these collections of the façade state; `accounts`
is carried to state the frame property. -/
structure AppState where
  managers : List Manager
  chats : List Chat
  accounts : List Account
deriving DecidableEq, Repr

/-- `deleteManager` (AuthContext.tsx lines 854-858): filters the manager list
and the chat list; the accounts collection is not touched. -/
def deleteManager (s : AppState) (id : Nat) : AppState :=
  { s with
    managers := s.managers.filter (fun m => m.id != id)
    chats := s.chats.filter (fun c => c.manager_id != some id) }

/-- State of one `localStorage` key at boot: missing, present but not valid
JSON (so `JSON.parse` throws), or present and parsed to a typed collection. -/
inductive Stored (α : Type)
  | absent
  | corrupt
  | good (val : α)
deriving DecidableEq, Repr

/-- The persisted keys read by the initial-load effect. -/
structure LocalStorageState where
  accounts : Stored (List Account)
  transfers : Stored (List TransferRecord)
  keywords : Stored (List String)
  managers : Stored (List Manager)
  chats_v2 : Stored (List Chat)
  schema_version : Option Nat
deriving Repr

/-- The collections populated when the initial-load effect finishes. -/
structure BootState where
  accounts : List Account
  transferRecords : List TransferRecord
  keywords : List String
  managers : List Manager
  chats : List Chat
  schemaVersionAfter : Nat
deriving DecidableEq, Repr

/-- The initial-load effect (AuthContext.tsx lines 420-445), in source order.
Every collection's parse is wrapped in `try {...} catch {}` — except the
transfers line `if (savedTransfers) setTransferRecords(JSON.parse(savedTransfers))`,
where a parse failure propagates as an exception and aborts the rest of the
effect (keywords, managers, schema migration never run). -/
def initialLoad (ls : LocalStorageState) (now : Nat) : Except String BootState := do
  let accounts := match ls.accounts with
    | .good v => v
    | _ => []
  let transfers ← match ls.transfers with
    | .absent => pure []
    | .corrupt => throw "SyntaxError: Unexpected token in JSON"
    | .good v => pure v
  let keywords := match ls.keywords with
    | .good v => v
    | _ => []
  let managers := match ls.managers with
    | .good v => v
    | _ => []
  let schemaVersion := ls.schema_version.getD 1
  if schemaVersion < 3 then
    let storedChats := match ls.chats_v2 with
      | .good v => v
      | _ => []
    let env := migrateToManagers
      { managers := managers, chats := storedChats, schema_version := schemaVersion } now
    pure { accounts := accounts, transferRecords := transfers, keywords := keywords
           managers := env.managers, chats := env.chats
           schemaVersionAfter := env.schema_version }
  else
    match ls.chats_v2 with
    | .good v =>
        pure { accounts := accounts, transferRecords := transfers, keywords := keywords
               managers := managers, chats := v, schemaVersionAfter := schemaVersion }
    | .corrupt =>
        -- parse failure swallowed; `storedChats` was truthy so no mock seeding
        pure { accounts := accounts, transferRecords := transfers, keywords := keywords
               managers := managers, chats := [], schemaVersionAfter := schemaVersion }
    | .absent =>
        -- `if (!storedChats) loadMockData()`
        let managersSeeded := if managers.isEmpty then [mkDefaultManager now] else managers
        let mockChats := createMockChats ((managersSeeded.headD (mkDefaultManager now)).id) now
        pure { accounts := accounts, transferRecords := transfers, keywords := keywords
               managers := managersSeeded, chats := mockChats
               schemaVersionAfter := schemaVersion }

/-- One invocation of the identity reconciler, with the ambient values it
reads (incoming chat, sender identity, clock, active manager, manager list). -/
structure CreateCall where
  chat : Chat
  senderId : Nat
  now : Nat
  activeManagerId : Option Nat
  managers : List Manager
deriving DecidableEq, Repr

/-- One reconciler invocation applied to the current accounts collection. -/
def createStep (accs : List Account) (c : CreateCall) : List Account :=
  createAccountFromChat accs c.chat c.senderId c.now c.activeManagerId c.managers

/-- A sequence of `createAccountFromChat` invocations starting from the empty
accounts collection. -/
def runCreates (calls : List CreateCall) : List Account :=
  calls.foldl createStep []

/-- A sequence of `updateAccount` calls carrying only a username patch, each
with its clock value, applied to the accounts collection. -/
def applyUsernameChangesL (accounts : List Account) (id : Nat) :
    List (String × Nat) → List Account
  | [] => accounts
  | (u, t) :: rest =>
      applyUsernameChangesL (updateAccount accounts id { username := some u } t) id rest

/-- The same sequence tracked on a single account record. -/
def applyUsernameChanges (acc : Account) : List (String × Nat) → Account
  | [] => acc
  | (u, t) :: rest => applyUsernameChanges (applyAccountUpdate acc { username := some u } t) rest

/-- The history entries the sequence actually records (the pre-change username
snapshots), in application order. -/
def recordedEntries (acc : Account) : List (String × Nat) → List HistEntry
  | [] => []
  | (u, t) :: rest =>
    if usernameChangeTriggers acc { username := some u } then
      HistEntry.mk (usernameOrPlaceholder acc.username) t ::
        recordedEntries (applyAccountUpdate acc { username := some u } t) rest
    else
      recordedEntries (applyAccountUpdate acc { username := some u } t) rest

/-- Every patch in the sequence actually changes the username (the claim's
"N sequential username changes"). -/
def allTrigger (acc : Account) : List (String × Nat) → Bool
  | [] => true
  | (u, t) :: rest =>
    usernameChangeTriggers acc { username := some u } &&
      allTrigger (applyAccountUpdate acc { username := some u } t) rest

/-- Concrete private conversation used by evaluation witnesses (the spec's
scenario: `upsertByIdentity(42, {first_name:"Ann", conversationKind:"private"})`). -/
def annChat : Chat :=
  { id := 7, type := ChatKind.privateChat, first_name := some "Ann" }

/-- Claim C7: when the identity reconciler finds no account with the sender's
user id, it appends a new record with rating 1, category and source derived
from the conversation kind (private → lead/private, else other/group),
message count 1, and first name resolved by the fallback precedence
explicit first name > conversation title > username > localized placeholder. -/
theorem claim_C7 (accounts : List Account) (chat : Chat) (senderId now : Nat)
    (mgr : Option Nat) (mgrs : List Manager)
    (h : accounts.find? (fun acc => acc.user_id == senderId) = none) :
    ∃ a, createAccountFromChat accounts chat senderId now mgr mgrs = accounts ++ [a] ∧
      a.user_id = senderId ∧
      a.rating = 1 ∧
      a.total_messages = 1 ∧
      a.category = (if chat.type = ChatKind.privateChat then "lead" else "other") ∧
      a.source = (if chat.type = ChatKind.privateChat then "private" else "group") ∧
      (∀ n, chat.first_name = some n → n ≠ "" → a.first_name = n) ∧
      (truthy chat.first_name = none →
        ∀ t, chat.title = some t → t ≠ "" → a.first_name = t) ∧
      (truthy chat.first_name = none → truthy chat.title = none →
        ∀ u, chat.username = some u → u ≠ "" → a.first_name = u) ∧
      (truthy chat.first_name = none → truthy chat.title = none →
        truthy chat.username = none → a.first_name = "Без имени") := by
  unfold createAccountFromChat
  rw [h]
  refine ⟨_, rfl, rfl, rfl, rfl, rfl, rfl, ?_, ?_, ?_, ?_⟩
  · intro n hn hne
    simp only [newAccountFromChat]
    rw [hn]
    simp [truthy, hne]
  · intro hfn t ht htne
    simp only [newAccountFromChat]
    rw [hfn, ht]
    simp [truthy, htne]
  · intro hfn hti u hu hune
    simp only [newAccountFromChat]
    rw [hfn, hti, hu]
    simp [truthy, hune]
  · intro hfn hti hun
    simp only [newAccountFromChat]
    rw [hfn, hti, hun]
    rfl

/-- Witness for C7, the spec's scenario: an empty store and a private chat
providing first name "Ann" for sender 42 yields
`{user_id: 42, first_name: "Ann", category: "lead", source: "private", rating: 1, total_messages: 1}`. -/
theorem claim_C7_witness :
    (createAccountFromChat [] annChat 42 100 none []).map
      (fun a => (a.user_id, a.first_name, a.category, a.source, a.rating, a.total_messages)) =
      [(42, "Ann", "lead", "private", 1, 1)] := by
  obtain ⟨a, happ, hu, hr, htm, hcat, hsrc, hfn, -, -, -⟩ :=
    claim_C7 [] annChat 42 100 none [] rfl
  have hname : a.first_name = "Ann" := hfn "Ann" rfl (by decide)
  rw [happ]
  simp [hu, hr, htm, hcat, hsrc, hname, annChat]

lemma createAccountFromChat_empty (chat : Chat) (senderId now : Nat)
    (mgr : Option Nat) (mgrs : List Manager) :
    createAccountFromChat [] chat senderId now mgr mgrs =
      [newAccountFromChat chat senderId now mgr mgrs] := rfl

lemma createAccountFromChat_singleton_found (a : Account) (chat : Chat)
    (senderId now : Nat) (mgr : Option Nat) (mgrs : List Manager)
    (h : a.user_id = senderId) :
    createAccountFromChat [a] chat senderId now mgr mgrs =
      [{ a with last_contact := now, total_messages := a.total_messages + 1 }] := by
  unfold createAccountFromChat
  rw [show ([a].find? (fun acc => acc.user_id == senderId)) = some a by
    simp [List.find?, h]]
  simp

/-- Counterexample to C2: invoking the reconciler twice with the identical
`(chat, senderId, clock)` arguments yields `total_messages = 2`, not the
claimed already-applied no-op that would keep it at 1. -/
theorem claim_C2_counterexample :
    (createAccountFromChat (createAccountFromChat [] annChat 42 5 none [])
        annChat 42 5 none []).map (fun a => (a.user_id, a.total_messages)) =
      [(42, 2)] := by
  rw [createAccountFromChat_empty,
    createAccountFromChat_singleton_found (newAccountFromChat annChat 42 5 none [])
      annChat 42 5 none [] rfl]
  rfl

/-- Claim C2 (amended): calling `createAccountFromChat` twice with the same
`(externalUserId, patch)` creates no duplicate record for that user id — the
collection still holds exactly one account with it — but the second call is
not a no-op: it increments `total_messages` to 2 and rewrites `last_contact`,
even when the patch timestamp is identical; repeat-invocation protection
rests entirely on the caller's per-session guard. -/
theorem claim_C2 (chat : Chat) (senderId t1 t2 : Nat) (mgr : Option Nat)
    (mgrs : List Manager) :
    ∃ a, createAccountFromChat (createAccountFromChat [] chat senderId t1 mgr mgrs)
        chat senderId t2 mgr mgrs = [a] ∧
      a.user_id = senderId ∧ a.total_messages = 2 ∧ a.last_contact = t2 := by
  refine ⟨{ newAccountFromChat chat senderId t1 mgr mgrs with
      last_contact := t2
      total_messages := (newAccountFromChat chat senderId t1 mgr mgrs).total_messages + 1 },
    ?_, rfl, rfl, rfl⟩
  rw [createAccountFromChat_empty,
    createAccountFromChat_singleton_found (newAccountFromChat chat senderId t1 mgr mgrs)
      chat senderId t2 mgr mgrs rfl]

lemma bump_user_id (existing a : Account) (now : Nat) :
    (if a.id == existing.id then
      { a with last_contact := now, total_messages := a.total_messages + 1 }
    else a).user_id = a.user_id := by
  by_cases hid : (a.id == existing.id) = true <;> simp [hid]

/-- One reconciler call preserves pairwise-distinct external user ids. -/
lemma createAccountFromChat_pairwise (accounts : List Account) (chat : Chat)
    (senderId now : Nat) (mgr : Option Nat) (mgrs : List Manager)
    (h : accounts.Pairwise (fun a b => a.user_id ≠ b.user_id)) :
    (createAccountFromChat accounts chat senderId now mgr mgrs).Pairwise
      (fun a b => a.user_id ≠ b.user_id) := by
  unfold createAccountFromChat
  cases hf : accounts.find? (fun acc => acc.user_id == senderId) with
  | some existing =>
      refine List.Pairwise.map _ (fun a b hab => ?_) h
      rw [bump_user_id existing a now, bump_user_id existing b now]
      exact hab
  | none =>
      rw [List.pairwise_append]
      refine ⟨h, by simp, fun a ha b hb => ?_⟩
      have hnb : ∀ x ∈ accounts, ¬((fun acc => acc.user_id == senderId) x = true) :=
        List.find?_eq_none.mp hf
      have := hnb a ha
      simp only [beq_iff_eq] at this
      rcases List.mem_singleton.mp hb with rfl
      simpa [newAccountFromChat] using this

lemma foldl_createStep_pairwise (calls : List CreateCall) (accs : List Account)
    (h : accs.Pairwise (fun a b => a.user_id ≠ b.user_id)) :
    (calls.foldl createStep accs).Pairwise (fun a b => a.user_id ≠ b.user_id) := by
  induction calls generalizing accs with
  | nil => exact h
  | cons c rest ih =>
      exact ih _ (createAccountFromChat_pairwise accs c.chat c.senderId c.now
        c.activeManagerId c.managers h)

lemma foldl_createStep_singleton (u : Nat) (calls : List CreateCall) :
    ∀ a : Account, (∀ c ∈ calls, c.senderId = u) → a.user_id = u →
      ∃ b, calls.foldl createStep [a] = [b] ∧ b.user_id = u ∧
        b.total_messages = a.total_messages + calls.length := by
  induction calls with
  | nil =>
      intro a _ ha
      exact ⟨a, rfl, ha, by simp⟩
  | cons c rest ih =>
      intro a hse ha
      have hc : c.senderId = u := hse c (List.mem_cons_self c rest)
      have hstep : createStep [a] c =
          [{ a with last_contact := c.now, total_messages := a.total_messages + 1 }] := by
        unfold createStep
        exact createAccountFromChat_singleton_found a c.chat c.senderId c.now
          c.activeManagerId c.managers (by rw [ha, hc])
      rw [List.foldl_cons, hstep]
      obtain ⟨b, hb, hbu, hbt⟩ :=
        ih { a with last_contact := c.now, total_messages := a.total_messages + 1 }
          (fun c' h' => hse c' (List.mem_cons_of_mem c h')) ha
      exact ⟨b, hb, hbu, by rw [hbt]; simp; omega⟩

/-- Claim C1 (amended): starting from an empty collection, any sequence of
identity-reconciler calls (`createAccountFromChat`) keeps external user ids
pairwise distinct — at most one record per `user_id` — and a non-empty
sequence of calls that all carry the same external id leaves exactly one
record with that id whose `total_messages` equals the number of calls made
(every repeat call is counted: there is no duplicate-patch detection).  The
claim as stated fails because `addAccount` appends without any identity
check (see the counterexample). -/
theorem claim_C1 :
    (∀ calls : List CreateCall,
      (runCreates calls).Pairwise (fun a b => a.user_id ≠ b.user_id)) ∧
    (∀ (u : Nat) (calls : List CreateCall), calls ≠ [] →
      (∀ c ∈ calls, c.senderId = u) →
      ∃ a, runCreates calls = [a] ∧ a.user_id = u ∧
        a.total_messages = calls.length) := by
  constructor
  · intro calls
    exact foldl_createStep_pairwise calls [] (by simp)
  · intro u calls hne hall
    cases calls with
    | nil => exact absurd rfl hne
    | cons c rest =>
        unfold runCreates
        rw [List.foldl_cons,
          show createStep [] c = [newAccountFromChat c.chat c.senderId c.now
            c.activeManagerId c.managers] from rfl]
        obtain ⟨b, hb, hbu, hbt⟩ := foldl_createStep_singleton u rest
          (newAccountFromChat c.chat c.senderId c.now c.activeManagerId c.managers)
          (fun c' h' => hall c' (List.mem_cons_of_mem c h'))
          (hall c (List.mem_cons_self c rest))
        refine ⟨b, hb, hbu, ?_⟩
        rw [hbt]
        simp [newAccountFromChat]
        omega

/-- Witness for C1: two reconciler calls for the same external id 42 end with
exactly one record for that id, whose message count is 2. -/
theorem claim_C1_witness :
    ∃ a, runCreates
        [ { chat := annChat, senderId := 42, now := 5, activeManagerId := none, managers := [] },
          { chat := annChat, senderId := 42, now := 9, activeManagerId := none, managers := [] } ] =
        [a] ∧ a.user_id = 42 ∧ a.total_messages = 2 :=
  claim_C1.2 42
    [ { chat := annChat, senderId := 42, now := 5, activeManagerId := none, managers := [] },
      { chat := annChat, senderId := 42, now := 9, activeManagerId := none, managers := [] } ]
    (by simp) (by decide)

/-- A manually entered contact payload with external user id 42, used to show
that `addAccount` performs no identity deduplication. -/
def dupContact : Account :=
  { id := 0, user_id := 42, first_name := "Ann", rating := 1, category := "lead"
    source := "private", created_at := 0, last_contact := 0, total_messages := 1 }

/-- Counterexample to C1: the façade mutator `addAccount` appends
unconditionally, so two `addAccount` calls with the same `user_id` leave two
records with that external id — identity uniqueness is not an invariant of
the full mutator set. -/
theorem claim_C1_counterexample :
    ¬ ((addAccount (addAccount [] dupContact 1 none []) dupContact 2 none []).Pairwise
        (fun a b => a.user_id ≠ b.user_id)) := by
  decide

lemma take_append_take {α : Type} (l m : List α) (n : Nat) :
    (l ++ m.take n).take n = (l ++ m).take n := by
  rw [List.take_append_eq_append_take, List.take_append_eq_append_take, List.take_take]
  congr 2
  exact min_eq_left (Nat.sub_le n l.length)

lemma applyChanges_hist (cs : List (String × Nat)) :
    ∀ acc : Account, allTrigger acc cs = true →
      (applyUsernameChanges acc cs).username_history =
        if cs.isEmpty then acc.username_history
        else ((recordedEntries acc cs).reverse ++ acc.username_history).take 20 := by
  induction cs with
  | nil =>
      intro acc _
      simp [applyUsernameChanges]
  | cons c rest ih =>
      intro acc htr
      obtain ⟨u, t⟩ := c
      rw [allTrigger, Bool.and_eq_true] at htr
      obtain ⟨h1, h2⟩ := htr
      have hstep : (applyAccountUpdate acc { username := some u } t).username_history =
          (HistEntry.mk (usernameOrPlaceholder acc.username) t :: acc.username_history).take 20 := by
        simp [applyAccountUpdate, h1]
      rw [show applyUsernameChanges acc ((u, t) :: rest) =
        applyUsernameChanges (applyAccountUpdate acc { username := some u } t) rest from rfl]
      rw [show recordedEntries acc ((u, t) :: rest) =
        HistEntry.mk (usernameOrPlaceholder acc.username) t ::
          recordedEntries (applyAccountUpdate acc { username := some u } t) rest by
        rw [recordedEntries]; rw [if_pos h1]]
      rw [ih _ h2]
      cases rest with
      | nil =>
          simp [recordedEntries, hstep]
      | cons r rs =>
          rw [if_neg (by simp), if_neg (by simp)]
          rw [hstep, take_append_take]
          simp

lemma applyAccountUpdate_id (acc : Account) (p : AccountPatch) (t : Nat) :
    (applyAccountUpdate acc p t).id = acc.id := rfl

lemma applyUsernameChangesL_map (cs : List (String × Nat)) :
    ∀ (l : List Account) (id : Nat),
      applyUsernameChangesL l id cs =
        l.map (fun b => if b.id == id then applyUsernameChanges b cs else b) := by
  induction cs with
  | nil =>
      intro l id
      simp [applyUsernameChangesL, applyUsernameChanges]
  | cons c rest ih =>
      intro l id
      obtain ⟨u, t⟩ := c
      rw [applyUsernameChangesL, ih, updateAccount, List.map_map]
      refine List.map_congr_left (fun b _ => ?_)
      by_cases hb : (b.id == id) = true
      · simp only [Function.comp_apply, hb, if_pos]
        rw [if_pos (by rw [applyAccountUpdate_id]; exact hb)]
        rfl
      · have hb' : ¬ b.id = id := by simpa using hb
        simp [Function.comp_apply, hb']

/-- Claim C3 (amended): after a non-empty sequence of username changes applied
via `updateAccount`, the account's `username_history` equals the recorded
pre-change username snapshots, most recent change first, in front of the
prior history and truncated to 20 entries — in particular it has at most 20
entries.  The original claim's clause that every entry (in particular the
most recent one) differs from the *current* username fails: an entry may
coincide with the current username when a previous value is reinstated, or
when the username is set to the literal placeholder `"(empty)"` recorded for
an empty previous value (see the counterexample). -/
theorem claim_C3 (l : List Account) (acc : Account) (cs : List (String × Nat))
    (hmem : acc ∈ l) (htr : allTrigger acc cs = true) (hne : cs ≠ []) :
    ∃ a ∈ applyUsernameChangesL l acc.id cs,
      a.username_history =
        ((recordedEntries acc cs).reverse ++ acc.username_history).take 20 ∧
      a.username_history.length ≤ 20 := by
  have hempty : cs.isEmpty = false := by
    cases cs with
    | nil => exact absurd rfl hne
    | cons c rest => rfl
  have hhist := applyChanges_hist cs acc htr
  rw [hempty] at hhist
  simp only [Bool.false_eq_true, if_false] at hhist
  refine ⟨applyUsernameChanges acc cs, ?_, hhist, ?_⟩
  · rw [applyUsernameChangesL_map]
    have hm := List.mem_map_of_mem
      (fun b => if b.id == acc.id then applyUsernameChanges b cs else b) hmem
    simpa using hm
  · rw [hhist]
    exact List.length_take_le 20 _

/-- Account with no username yet, used by the C3 counterexample. -/
def noUsernameAccount : Account :=
  { id := 1, user_id := 42, username := none, username_history := []
    first_name := "Ann", rating := 1, category := "lead", source := "private"
    created_at := 0, last_contact := 0, total_messages := 1 }

/-- Counterexample to C3: updating an account whose username is unset to the
literal string `"(empty)"` records the placeholder `"(empty)"` as the
most-recent history entry while also making it the current username, so the
most recent `username_history` entry can equal the currently active
username. -/
theorem claim_C3_counterexample :
    (updateAccount [noUsernameAccount] 1 { username := some "(empty)" } 10).map
      (fun a => (a.username, a.username_history.map HistEntry.username)) =
      [(some "(empty)", ["(empty)"])] := by
  decide

/-- Witness for C3: two sequential username changes on a fresh account leave a
two-entry history equal to the recorded snapshots, most recent first. -/
theorem claim_C3_witness :
    ∃ a ∈ applyUsernameChangesL [noUsernameAccount] noUsernameAccount.id
        [("ann99", 1), ("ann_b", 2)],
      a.username_history =
        ((recordedEntries noUsernameAccount [("ann99", 1), ("ann_b", 2)]).reverse ++
          noUsernameAccount.username_history).take 20 ∧
      a.username_history.length ≤ 20 :=
  claim_C3 [noUsernameAccount] noUsernameAccount
    [("ann99", 1), ("ann_b", 2)] (by decide) (by decide) (by decide)

lemma validChat_of_not_needsFix (managers : List Manager) (c : Chat)
    (h : needsFix managers c = false) :
    ∃ mg ∈ managers, c.manager_id = some mg.id := by
  unfold needsFix at h
  cases hc : c.manager_id with
  | none => rw [hc] at h; cases h
  | some v =>
      rw [hc] at h
      simp only [Bool.not_eq_false'] at h
      obtain ⟨mg, hmg, hid⟩ := List.any_eq_true.mp h
      rw [beq_iff_eq] at hid
      exact ⟨mg, hmg, by rw [hid]⟩

lemma needsFix_of_valid (managers : List Manager) (c : Chat)
    (h : ∃ mg ∈ managers, c.manager_id = some mg.id) :
    needsFix managers c = false := by
  obtain ⟨mg, hmg, hc⟩ := h
  unfold needsFix
  rw [hc]
  simp only [Bool.not_eq_false']
  exact List.any_eq_true.mpr ⟨mg, hmg, by simp⟩

lemma normalizeChat_valid (managers : List Manager) (m : Manager) (hm : m ∈ managers)
    (c : Chat) :
    ∃ mg ∈ managers, (normalizeChat managers m.id c).manager_id = some mg.id := by
  unfold normalizeChat
  by_cases hfix : needsFix managers c = true
  · rw [if_pos hfix]
    cases ha : c.account_id with
    | some a =>
        by_cases hany : managers.any (fun mg => mg.id == a) = true
        · obtain ⟨mg, hmg, hid⟩ := List.any_eq_true.mp hany
          rw [beq_iff_eq] at hid
          exact ⟨mg, hmg, by simp [hany, hid]⟩
        · exact ⟨m, hm, by simp [hany]⟩
    | none => exact ⟨m, hm, by simp⟩
  · rw [if_neg hfix]
    exact validChat_of_not_needsFix managers c (Bool.not_eq_true _ ▸ eq_false_of_ne_true hfix)

/-- Claim C4: with a non-empty manager set, one repair pass leaves every
chat's `manager_id` referencing a current manager (a dangling id is
reassigned to the legacy `account_id` hint when that matches a manager, else
to the first manager), and running the pass again on its own output returns
the list unchanged and performs no persistence write. -/
theorem claim_C4 (managers : List Manager) (chats : List Chat) (now now2 : Nat)
    (h : managers ≠ []) :
    (∀ c ∈ (repairChats managers chats now).1,
      ∃ mg ∈ managers, c.manager_id = some mg.id) ∧
    repairChats managers (repairChats managers chats now).1 now2 =
      ((repairChats managers chats now).1, false) := by
  obtain ⟨m, ms, rfl⟩ : ∃ m ms, managers = m :: ms := by
    cases managers with
    | nil => exact absurd rfl h
    | cons m ms => exact ⟨m, ms, rfl⟩
  have hchats_ne : ¬chats.isEmpty = true → chats ≠ [] := by
    intro hemp hnil
    rw [hnil] at hemp
    exact hemp rfl
  have hvalid : ∀ c ∈ (repairChats (m :: ms) chats now).1,
      ∃ mg ∈ m :: ms, c.manager_id = some mg.id := by
    intro c hc
    rw [repairChats] at hc
    by_cases hemp : chats.isEmpty = true
    · rw [if_pos hemp] at hc
      simp only [createMockChats, List.mem_cons, List.not_mem_nil, or_false] at hc
      rcases hc with rfl | rfl | rfl <;>
        exact ⟨m, List.mem_cons_self m ms, rfl⟩
    · rw [if_neg hemp] at hc
      by_cases hch : chats.any (needsFix (m :: ms)) = true
      · rw [if_pos hch] at hc
        obtain ⟨c0, hc0, rfl⟩ := List.mem_map.mp hc
        exact normalizeChat_valid (m :: ms) m (List.mem_cons_self m ms) c0
      · rw [if_neg hch] at hc
        have hc' : c ∈ chats := hc
        have hany : chats.any (needsFix (m :: ms)) = false := eq_false_of_ne_true hch
        have hfix : needsFix (m :: ms) c = false :=
          eq_false_of_ne_true (List.any_eq_false.mp hany c hc')
        exact validChat_of_not_needsFix (m :: ms) c hfix
  have hne' : (repairChats (m :: ms) chats now).1 ≠ [] := by
    rw [repairChats]
    by_cases hemp : chats.isEmpty = true
    · rw [if_pos hemp]
      simp [createMockChats]
    · rw [if_neg hemp]
      by_cases hch : chats.any (needsFix (m :: ms)) = true
      · rw [if_pos hch]
        simpa using hchats_ne hemp
      · rw [if_neg hch]
        exact hchats_ne hemp
  refine ⟨hvalid, ?_⟩
  rw [show repairChats (m :: ms) (repairChats (m :: ms) chats now).1 now2 =
      if (repairChats (m :: ms) chats now).1.isEmpty then
        (createMockChats m.id now2, true)
      else if (repairChats (m :: ms) chats now).1.any (needsFix (m :: ms)) then
        ((repairChats (m :: ms) chats now).1.map (normalizeChat (m :: ms) m.id), true)
      else ((repairChats (m :: ms) chats now).1, false) from rfl]
  rw [if_neg (by
    intro hemp
    exact hne' (List.isEmpty_iff.mp hemp))]
  rw [if_neg (by
    intro hany
    obtain ⟨c, hc, hfix⟩ := List.any_eq_true.mp hany
    rw [needsFix_of_valid (m :: ms) c (hvalid c hc)] at hfix
    cases hfix)]

/-- First seeded manager, id 1. -/
def mgrOne : Manager := { id := 1, name := "Менеджер 1", created_at := 0 }

/-- Second seeded manager, id 2. -/
def mgrTwo : Manager := { id := 2, name := "Менеджер 2", created_at := 0 }

/-- A conversation whose owner reference 99 is dangling. -/
def danglingChat : Chat :=
  { id := 50, type := ChatKind.privateChat, manager_id := some 99 }

/-- Witness for C4, including the spec scenario: with managers `[1, 2]` and a
chat owned by the dangling id 99, the repaired chat is owned by 1 and a
second pass changes nothing and writes nothing. -/
theorem claim_C4_witness :
    ((∀ c ∈ (repairChats [mgrOne, mgrTwo] [danglingChat] 0).1,
        ∃ mg ∈ [mgrOne, mgrTwo], c.manager_id = some mg.id) ∧
      repairChats [mgrOne, mgrTwo] (repairChats [mgrOne, mgrTwo] [danglingChat] 0).1 3 =
        ((repairChats [mgrOne, mgrTwo] [danglingChat] 0).1, false)) ∧
    (repairChats [mgrOne, mgrTwo] [danglingChat] 0).1.map Chat.manager_id = [some 1] :=
  ⟨claim_C4 [mgrOne, mgrTwo] [danglingChat] 0 3 (by decide), by decide⟩

lemma chat_eta (c : Chat) (v : Nat) (h : c.manager_id = some v) :
    ({ c with manager_id := some v } : Chat) = c := by
  cases c
  simp_all

lemma migrateChat_fixed (mid : Nat) (c : Chat) (v : Nat) (h : c.manager_id = some v) :
    migrateChat mid c = c := by
  unfold migrateChat
  rw [h]
  exact chat_eta c v h

lemma migrate_map_fixed (mid : Nat) (l : List Chat)
    (h : ∀ c ∈ l, ∃ v, c.manager_id = some v) :
    l.map (migrateChat mid) = l := by
  induction l with
  | nil => rfl
  | cons c rest ih =>
      obtain ⟨v, hv⟩ := h c (List.mem_cons_self c rest)
      rw [List.map_cons, ih (fun x hx => h x (List.mem_cons_of_mem c hx)),
        migrateChat_fixed mid c v hv]

lemma createMockChats_manager_id (mid now : Nat) :
    ∀ c ∈ createMockChats mid now, c.manager_id = some mid := by
  intro c hc
  simp only [createMockChats, List.mem_cons, List.not_mem_nil, or_false] at hc
  rcases hc with rfl | rfl | rfl <;> rfl

lemma migrateToManagers_chats_eq (env : Envelope) (now : Nat) :
    (migrateToManagers env now).chats =
      if (env.chats.map (migrateChat (migMid env now))).isEmpty then
        createMockChats (migMid env now) now
      else env.chats.map (migrateChat (migMid env now)) := rfl

lemma migrateToManagers_chats_some (env : Envelope) (now : Nat) :
    ∀ c ∈ (migrateToManagers env now).chats, ∃ v, c.manager_id = some v := by
  intro c hc
  rw [migrateToManagers_chats_eq] at hc
  split at hc
  · exact ⟨_, createMockChats_manager_id _ now c hc⟩
  · obtain ⟨c0, hc0, rfl⟩ := List.mem_map.mp hc
    exact ⟨_, rfl⟩

lemma migrateToManagers_managers_ne (env : Envelope) (now : Nat) :
    (migrateToManagers env now).managers ≠ [] := by
  show migMgrs env now ≠ []
  unfold migMgrs
  split
  · simp
  · next h =>
      intro hnil
      rw [hnil] at h
      exact h rfl

lemma migrateToManagers_chats_ne (env : Envelope) (now : Nat) :
    (migrateToManagers env now).chats ≠ [] := by
  rw [migrateToManagers_chats_eq]
  split
  · simp [createMockChats]
  · next h =>
      intro hnil
      rw [hnil] at h
      exact h rfl

lemma isEmpty_false_of_ne_nil {α : Type} {l : List α} (h : l ≠ []) :
    l.isEmpty = false := by
  cases l with
  | nil => exact absurd rfl h
  | cons a t => rfl

/-- Claim C5: the version 1→3 schema migration is idempotent — applying
`migrateToManagers` to the result of applying it once (at any pair of clock
readings) returns the first result unchanged: the same managers, the same
chats with the same `manager_id` assignments, and the same schema marker. -/
theorem claim_C5 (env : Envelope) (t1 t2 : Nat) :
    migrateToManagers (migrateToManagers env t1) t2 = migrateToManagers env t1 := by
  have hmempty : (migrateToManagers env t1).managers.isEmpty = false :=
    isEmpty_false_of_ne_nil (migrateToManagers_managers_ne env t1)
  have hcempty : (migrateToManagers env t1).chats.isEmpty = false :=
    isEmpty_false_of_ne_nil (migrateToManagers_chats_ne env t1)
  have hmap := migrate_map_fixed (migMid (migrateToManagers env t1) t2)
    (migrateToManagers env t1).chats (migrateToManagers_chats_some env t1)
  show ({ managers := migMgrs (migrateToManagers env t1) t2
          chats :=
            if ((migrateToManagers env t1).chats.map
                (migrateChat (migMid (migrateToManagers env t1) t2))).isEmpty then
              createMockChats (migMid (migrateToManagers env t1) t2) t2
            else (migrateToManagers env t1).chats.map
              (migrateChat (migMid (migrateToManagers env t1) t2))
          schema_version := 3 } : Envelope) = migrateToManagers env t1
  rw [hmap]
  rw [show migMgrs (migrateToManagers env t1) t2 = (migrateToManagers env t1).managers by
    unfold migMgrs; rw [hmempty]; rfl]
  rw [hcempty]
  rfl

/-- Claim C6 evidence: with valid login state, a stored transfers payload
that is not parseable JSON makes the initial-load effect throw — the
`JSON.parse(savedTransfers)` call is the only collection parse not wrapped in
`try { ... } catch {}` — so boot aborts instead of treating the collection as
empty and continuing with keywords, managers and the schema migration. -/
theorem claim_C6_code_bug :
    initialLoad
      { accounts := Stored.absent, transfers := Stored.corrupt
        keywords := Stored.absent, managers := Stored.absent
        chats_v2 := Stored.absent, schema_version := none } 0 =
      Except.error "SyntaxError: Unexpected token in JSON" := rfl

/-- Claim C8: a transfer-form submission whose supplier and client contact
selections coincide is rejected by `handleSubmit` before reaching the store —
neither `addTransferRecord` nor `updateTransferRecord` runs and the transfers
collection is unchanged. -/
theorem claim_C8 (editing : Option TransferRecord) (form : TransferFormState)
    (h : form.supplier_account_id = form.client_account_id) :
    (∃ msg, handleSubmit editing form = SubmitOutcome.rejected msg) ∧
    ∀ (records : List TransferRecord) (now : Nat),
      submitEffect records editing form now = records := by
  have hmain : ∃ msg, handleSubmit editing form = SubmitOutcome.rejected msg := by
    unfold handleSubmit
    by_cases hf : (isFalsyId form.supplier_account_id ||
        isFalsyId form.client_account_id) = true
    · rw [if_pos hf]
      exact ⟨_, rfl⟩
    · rw [if_neg hf, if_pos (by rw [h]; exact beq_self_eq_true _)]
      exact ⟨_, rfl⟩
  refine ⟨hmain, fun records now => ?_⟩
  obtain ⟨msg, hmsg⟩ := hmain
  unfold submitEffect
  rw [hmsg]

/-- A stored transfer record used by evaluation witnesses. -/
def sampleTransfer : TransferRecord :=
  { id := 11, supplier_account_id := 1, client_account_id := 2
    created_at := 0, status := TransferStatus.new }

/-- Witness for C8: submitting a create form with supplier = client = 5 is
rejected and leaves a one-record transfers collection unchanged. -/
theorem claim_C8_witness :
    (∃ msg, handleSubmit none
      { supplier_account_id := some 5, client_account_id := some 5
        status := TransferStatus.new, notes := "" } = SubmitOutcome.rejected msg) ∧
    submitEffect [sampleTransfer] none
      { supplier_account_id := some 5, client_account_id := some 5
        status := TransferStatus.new, notes := "" } 9 = [sampleTransfer] :=
  ⟨(claim_C8 none
      { supplier_account_id := some 5, client_account_id := some 5
        status := TransferStatus.new, notes := "" } rfl).1,
   (claim_C8 none
      { supplier_account_id := some 5, client_account_id := some 5
        status := TransferStatus.new, notes := "" } rfl).2 [sampleTransfer] 9⟩

/-- Claim C9: deleting a manager removes that manager, removes exactly the
chats owned by it (chats of other managers, or with no owner, survive), and
leaves the accounts collection untouched. -/
theorem claim_C9 (s : AppState) (id : Nat) (h : id ∈ s.managers.map Manager.id) :
    (∀ m ∈ (deleteManager s id).managers, m.id ≠ id) ∧
    (∀ c, c ∈ (deleteManager s id).chats ↔
      (c ∈ s.chats ∧ c.manager_id ≠ some id)) ∧
    (deleteManager s id).accounts = s.accounts := by
  refine ⟨?_, ?_, rfl⟩
  · intro m hm
    have hm' : m ∈ s.managers.filter (fun m => m.id != id) := hm
    rcases List.mem_filter.mp hm' with ⟨-, hp⟩
    simpa using hp
  · intro c
    show c ∈ s.chats.filter (fun c => c.manager_id != some id) ↔ _
    rw [List.mem_filter]
    simp [bne_iff_ne]

/-- Façade state with two managers, three chats and one account, used by the
C9 witness. -/
def twoManagerState : AppState :=
  { managers := [mgrOne, mgrTwo]
    chats :=
      [ { id := 10, type := ChatKind.privateChat, manager_id := some 1 }
      , { id := 11, type := ChatKind.group, manager_id := some 2 }
      , { id := 12, type := ChatKind.privateChat, manager_id := none } ]
    accounts := [dupContact] }

/-- Witness for C9: deleting manager 1 from the two-manager state removes it,
keeps manager 2's chat and the ownerless chat, and keeps accounts intact. -/
theorem claim_C9_witness :
    (∀ m ∈ (deleteManager twoManagerState 1).managers, m.id ≠ 1) ∧
    (({ id := 11, type := ChatKind.group, manager_id := some 2 } : Chat) ∈
        (deleteManager twoManagerState 1).chats ↔
      (({ id := 11, type := ChatKind.group, manager_id := some 2 } : Chat) ∈
        twoManagerState.chats ∧
        ({ id := 11, type := ChatKind.group, manager_id := some 2 } : Chat).manager_id ≠
          some 1)) ∧
    (deleteManager twoManagerState 1).accounts = twoManagerState.accounts :=
  ⟨(claim_C9 twoManagerState 1 (by decide)).1,
   (claim_C9 twoManagerState 1 (by decide)).2.1
     { id := 11, type := ChatKind.group, manager_id := some 2 },
   (claim_C9 twoManagerState 1 (by decide)).2.2⟩

/-- No two chat-member records share the same `(chat_id, user_id)` pair. -/
@[reducible] def MemberPairUnique (l : List ChatMember) : Prop :=
  l.Pairwise (fun a b => ¬(a.chat_id = b.chat_id ∧ a.user_id = b.user_id))

/-- Counterexample to C10: the bulk-add filter checks incoming ids only
against the already-stored set, not against each other, so an input list
repeating a new id (here `[5, 5]`) inserts two records with the same
`(chat_id, user_id)` pair. -/
theorem claim_C10_counterexample :
    ¬ MemberPairUnique (addMembersBulk [] 1 [5, 5] 0) := by
  decide

lemma bulkAdditions_map_user_id (members : List ChatMember) (chatId : Nat)
    (userIds : List Nat) (now : Nat) :
    (bulkAdditions members chatId userIds now).map ChatMember.user_id =
      userIds.filter (fun id =>
        !(((existingForChat members chatId).map ChatMember.user_id).contains id)) := by
  unfold bulkAdditions
  rw [List.map_map]
  rw [show (ChatMember.user_id ∘ fun p : Nat × Nat => mkBulkMember chatId now
      (p.1 == 0 && (existingForChat members chatId).isEmpty) p.2) = Prod.snd from
    funext (fun p => rfl)]
  exact List.enum_map_snd _

lemma mem_bulkAdditions (members : List ChatMember) (chatId : Nat)
    (userIds : List Nat) (now : Nat) (a : ChatMember)
    (ha : a ∈ bulkAdditions members chatId userIds now) :
    a.chat_id = chatId ∧
    a.user_id ∈ userIds.filter (fun id =>
      !(((existingForChat members chatId).map ChatMember.user_id).contains id)) := by
  constructor
  · obtain ⟨p, hp, rfl⟩ := List.mem_map.mp ha
    rfl
  · have hmem := List.mem_map_of_mem ChatMember.user_id ha
    rwa [bulkAdditions_map_user_id] at hmem

lemma not_present_of_filter_pass (members : List ChatMember) (chatId : Nat) (id : Nat)
    (h : (!(((existingForChat members chatId).map ChatMember.user_id).contains id)) = true) :
    ∀ m ∈ members, m.chat_id = chatId → m.user_id ≠ id := by
  intro m hm hchat heq
  rw [Bool.not_eq_true'] at h
  have hmem : id ∈ (existingForChat members chatId).map ChatMember.user_id := by
    rw [← heq]
    exact List.mem_map_of_mem ChatMember.user_id
      (List.mem_filter.mpr ⟨hm, by simp [hchat]⟩)
  have hc : ((existingForChat members chatId).map ChatMember.user_id).contains id = true :=
    List.elem_iff.mpr hmem
  rw [hc] at h
  cases h

lemma bulkAdditions_pairwise (members : List ChatMember) (chatId : Nat)
    (userIds : List Nat) (now : Nat) (hnd : userIds.Nodup) :
    (bulkAdditions members chatId userIds now).Pairwise
      (fun a b => ¬(a.chat_id = b.chat_id ∧ a.user_id = b.user_id)) := by
  unfold bulkAdditions
  rw [List.pairwise_map]
  have hfil : (userIds.filter (fun id =>
      !(((existingForChat members chatId).map ChatMember.user_id).contains id))).Nodup :=
    hnd.filter _
  have hsnd : ((userIds.filter (fun id =>
      !(((existingForChat members chatId).map ChatMember.user_id).contains id))).enum.map
        Prod.snd).Nodup := by
    rw [List.enum_map_snd]
    exact hfil
  have hpair := List.pairwise_map.mp hsnd
  exact hpair.imp (fun hne hand => hne hand.2)

/-- Claim C10 (amended): provided the incoming user-id list itself has no
duplicates, `addMembersBulk` preserves `(chat_id, user_id)` uniqueness: it
appends exactly the records for ids not already present for that chat,
leaves existing records unchanged (pure append), and is a no-op on an empty
or fully already-present id list.  The unrestricted claim fails because the
filter checks incoming ids only against the stored set, so a duplicated new
id in one call is inserted twice (see the counterexample). -/
theorem claim_C10 (members : List ChatMember) (chatId : Nat) (userIds : List Nat)
    (now : Nat) (hnd : userIds.Nodup) (hu : MemberPairUnique members) :
    MemberPairUnique (addMembersBulk members chatId userIds now) ∧
    (∃ adds, addMembersBulk members chatId userIds now = members ++ adds ∧
      ∀ a ∈ adds, a.chat_id = chatId ∧ a.user_id ∈ userIds ∧
        ∀ m ∈ members, m.chat_id = chatId → m.user_id ≠ a.user_id) ∧
    ((∀ u ∈ userIds, ∃ m ∈ members, m.chat_id = chatId ∧ m.user_id = u) →
      addMembersBulk members chatId userIds now = members) := by
  by_cases hemp : userIds.isEmpty = true
  · have hnil : userIds = [] := List.isEmpty_iff.mp hemp
    subst hnil
    refine ⟨hu, ⟨[], by simp [addMembersBulk], by simp⟩, fun _ => rfl⟩
  · have hres : addMembersBulk members chatId userIds now =
        members ++ bulkAdditions members chatId userIds now := by
      unfold addMembersBulk
      rw [if_neg hemp]
    have hcross : ∀ m ∈ members, ∀ a ∈ bulkAdditions members chatId userIds now,
        ¬(m.chat_id = a.chat_id ∧ m.user_id = a.user_id) := by
      intro m hm a ha hand
      obtain ⟨hac, hafil⟩ := mem_bulkAdditions members chatId userIds now a ha
      rcases List.mem_filter.mp hafil with ⟨-, hP⟩
      exact not_present_of_filter_pass members chatId a.user_id hP m hm
        (hand.1.trans hac) hand.2
    refine ⟨?_, ?_, ?_⟩
    · rw [MemberPairUnique, hres, List.pairwise_append]
      exact ⟨hu, bulkAdditions_pairwise members chatId userIds now hnd, hcross⟩
    · refine ⟨bulkAdditions members chatId userIds now, hres, fun a ha => ?_⟩
      obtain ⟨hac, hafil⟩ := mem_bulkAdditions members chatId userIds now a ha
      rcases List.mem_filter.mp hafil with ⟨haU, hP⟩
      exact ⟨hac, haU, not_present_of_filter_pass members chatId a.user_id hP⟩
    · intro hall
      have hfilnil : userIds.filter (fun id =>
          !(((existingForChat members chatId).map ChatMember.user_id).contains id)) = [] := by
        rw [List.filter_eq_nil_iff]
        intro u huU
        obtain ⟨m, hm, hchat, huid⟩ := hall u huU
        have hmem : u ∈ (existingForChat members chatId).map ChatMember.user_id := by
          rw [← huid]
          exact List.mem_map_of_mem ChatMember.user_id
            (List.mem_filter.mpr ⟨hm, by simp [hchat]⟩)
        have hc : ((existingForChat members chatId).map ChatMember.user_id).contains u = true :=
          List.elem_iff.mpr hmem
        rw [hc]
        simp
      have haddnil : bulkAdditions members chatId userIds now = [] := by
        unfold bulkAdditions
        rw [hfilnil]
        rfl
      rw [hres, haddnil, List.append_nil]

/-- Witness for C10: one stored member `(1, 5)` and the duplicate-free input
`[5, 6, 7]` — only 6 and 7 are appended, the stored record survives, and pair
uniqueness holds afterwards. -/
theorem claim_C10_witness :
    MemberPairUnique (addMembersBulk [mkBulkMember 1 0 true 5] 1 [5, 6, 7] 2) ∧
    (∃ adds, addMembersBulk [mkBulkMember 1 0 true 5] 1 [5, 6, 7] 2 =
        [mkBulkMember 1 0 true 5] ++ adds ∧
      ∀ a ∈ adds, a.chat_id = 1 ∧ a.user_id ∈ [5, 6, 7] ∧
        ∀ m ∈ [mkBulkMember 1 0 true 5], m.chat_id = 1 → m.user_id ≠ a.user_id) ∧
    ((∀ u ∈ [5, 6, 7], ∃ m ∈ [mkBulkMember 1 0 true 5], m.chat_id = 1 ∧ m.user_id = u) →
      addMembersBulk [mkBulkMember 1 0 true 5] 1 [5, 6, 7] 2 = [mkBulkMember 1 0 true 5]) :=
  claim_C10 [mkBulkMember 1 0 true 5] 1 [5, 6, 7] 2 (by decide) (by decide)

end CrmTg
